import Mathlib

/-!
Verification of the index-reconciliation subsystem of `blog_generator.py`.

The development shallowly embeds the data model and the operations of
`BlogGenerator` (date formatting/parsing, output-filename derivation, the
blog-section reconciliation `add_or_update_blog_post`, the destructive
`rebuild_blog_section`, and `verify_blog_integrity`) as executable Lean
functions, and proves or refutes the specification's claims about them.

The blog section of `index.html` is modelled as a list of sibling nodes
(`Node`): the `h2` heading, `article.blog-post` entries, and any other
sibling node (text, whitespace, unrelated markup).  Dates are triples
`(year, month, day)` of naturals; the CPython `_strptime` regular
expressions for the two formats used by the script (`%Y-%m-%d` and
`%B %d, %Y`) are modelled character by character, including the
per-alternative ranges of `%m`/`%d`, the exactly-four-digit `%Y`, the
case-insensitive month names of `%B`, the `\s+` matching of format
whitespace, and the calendar validation performed by the
`datetime.datetime` constructor.  `strftime` is modelled after glibc,
which CPython delegates to on the platform this repository targets:
`%m`/`%d` are zero-padded two-digit fields, while `%Y` prints the year
as a plain decimal number, unpadded below year 1000.
-/

namespace BlogGen

/-- The character for decimal digit `n` (`n < 10`), as produced by
zero-padded `strftime` numeric conversions. -/
def digitChar (n : Nat) : Char := Char.ofNat (48 + n)

/-- Numeric value of a decimal digit character. -/
def charToDigit (c : Char) : Nat := c.toNat - 48

/-- Two-digit zero-padded decimal rendering (`%m`, `%d` of `strftime`). -/
def pad2 (n : Nat) : List Char := [digitChar (n / 10 % 10), digitChar (n % 10)]

/-- Four consecutive decimal digits (the digits of `n` when
`1000 ≤ n ≤ 9999`). -/
def pad4 (n : Nat) : List Char :=
  [digitChar (n / 1000 % 10), digitChar (n / 100 % 10), digitChar (n / 10 % 10),
    digitChar (n % 10)]

/-- `%Y` of glibc `strftime`: the year as a plain decimal number, without
zero padding (year 5 prints as `5`, not `0005`).  Years above 9999 cannot
arise: both parsers that feed this renderer bound the year by 9999. -/
def yearChars (y : Nat) : List Char :=
  if y < 10 then [digitChar y]
  else if y < 100 then [digitChar (y / 10), digitChar (y % 10)]
  else if y < 1000 then [digitChar (y / 100), digitChar (y / 10 % 10), digitChar (y % 10)]
  else pad4 y

/-- Gregorian leap-year rule, as used by `datetime`. -/
def isLeapYear (y : Nat) : Bool := (y % 4 == 0 && y % 100 != 0) || (y % 400 == 0)

/-- Number of days of month `m` in year `y`. -/
def daysInMonth (y m : Nat) : Nat :=
  if m = 2 then (if isLeapYear y then 29 else 28)
  else if m = 4 ∨ m = 6 ∨ m = 9 ∨ m = 11 then 30 else 31

/-- The validation performed by the `datetime.datetime(year, month, day)`
constructor: `MINYEAR ≤ year ≤ MAXYEAR` and a real calendar date. -/
def validDate (y m d : Nat) : Prop :=
  1 ≤ y ∧ y ≤ 9999 ∧ 1 ≤ m ∧ m ≤ 12 ∧ 1 ≤ d ∧ d ≤ daysInMonth y m

instance validDate.instDecidable : ∀ y m d, Decidable (validDate y m d) :=
  fun y m d => by unfold validDate; infer_instance

/-- Build the date when `datetime.datetime` accepts it; `none` models the
`ValueError` it raises otherwise. -/
def mkDate (y m d : Nat) : Option (Nat × Nat × Nat) :=
  if validDate y m d then some (y, m, d) else none

/-- The `\d\d\d\d` group that CPython `_strptime` uses for `%Y`. -/
def parse4Digits : List Char → Option (Nat × List Char)
  | a :: b :: c :: d :: rest =>
    if a.isDigit ∧ b.isDigit ∧ c.isDigit ∧ d.isDigit then
      some ((((charToDigit a) * 10 + charToDigit b) * 10 + charToDigit c) * 10
              + charToDigit d, rest)
    else none
  | _ => none

/-- The `(1[0-2]|0[1-9]|[1-9])` group that CPython `_strptime` uses for `%m`,
with the alternatives tried in this order. -/
def parseMonthField : List Char → Option (Nat × List Char)
  | [] => none
  | [c] => if '1' ≤ c ∧ c ≤ '9' then some (charToDigit c, []) else none
  | c :: c2 :: rest =>
    if c = '1' ∧ (c2 = '0' ∨ c2 = '1' ∨ c2 = '2') then
      some (10 + charToDigit c2, rest)
    else if c = '0' then
      (if '1' ≤ c2 ∧ c2 ≤ '9' then some (charToDigit c2, rest) else none)
    else if '1' ≤ c ∧ c ≤ '9' then some (charToDigit c, c2 :: rest)
    else none

/-- The `(3[01]|[12]\d|0[1-9]|[1-9]| [1-9])` group that CPython `_strptime`
uses for `%d`, with the alternatives tried in this order. -/
def parseDayField : List Char → Option (Nat × List Char)
  | [] => none
  | [c] => if '1' ≤ c ∧ c ≤ '9' then some (charToDigit c, []) else none
  | c :: c2 :: rest =>
    if c = '3' ∧ (c2 = '0' ∨ c2 = '1') then some (30 + charToDigit c2, rest)
    else if (c = '1' ∨ c = '2') ∧ c2.isDigit then
      some ((charToDigit c) * 10 + charToDigit c2, rest)
    else if c = '0' then
      (if '1' ≤ c2 ∧ c2 ≤ '9' then some (charToDigit c2, rest) else none)
    else if '1' ≤ c ∧ c ≤ '9' then some (charToDigit c, c2 :: rest)
    else if c = ' ' ∧ '1' ≤ c2 ∧ c2 ≤ '9' then some (charToDigit c2, rest)
    else none

/-- `datetime.strptime(s, "%Y-%m-%d")`: the full input must be consumed, and
the parsed fields must form a valid `datetime`; `none` models `ValueError`. -/
def strptimeYMDCore (s : List Char) : Option (Nat × Nat × Nat) :=
  match parse4Digits s with
  | none => none
  | some (y, r1) =>
    match r1 with
    | [] => none
    | c1 :: r2 =>
      if c1 = '-' then
        match parseMonthField r2 with
        | none => none
        | some (m, r3) =>
          match r3 with
          | [] => none
          | c2 :: r4 =>
            if c2 = '-' then
              match parseDayField r4 with
              | none => none
              | some (d, r5) => if r5 = [] then mkDate y m d else none
            else none
      else none

/-- The continuation of `strptimeYMDCore` after the month field, restated as
a named function (used only to phrase lemmas about `strptimeYMDCore`; it is
definitionally the same code). -/
def dayCont (y m : Nat) (r : Option (Nat × List Char)) : Option (Nat × Nat × Nat) :=
  match r with
  | none => none
  | some (d, r5) => if r5 = [] then mkDate y m d else none

/-- The continuation of `strptimeYMDCore` after the year field, restated as
a named function (used only to phrase lemmas about `strptimeYMDCore`). -/
def monthCont (y : Nat) (r : Option (Nat × List Char)) : Option (Nat × Nat × Nat) :=
  match r with
  | none => none
  | some (m, r3) =>
    match r3 with
    | [] => none
    | c2 :: r4 => if c2 = '-' then dayCont y m (parseDayField r4) else none

/-- English month names (the `C`/`en_US` locale data CPython's `_strptime`
builds its `%B` group from). -/
def monthChars : Nat → List Char
  | 1 => ['J', 'a', 'n', 'u', 'a', 'r', 'y']
  | 2 => ['F', 'e', 'b', 'r', 'u', 'a', 'r', 'y']
  | 3 => ['M', 'a', 'r', 'c', 'h']
  | 4 => ['A', 'p', 'r', 'i', 'l']
  | 5 => ['M', 'a', 'y']
  | 6 => ['J', 'u', 'n', 'e']
  | 7 => ['J', 'u', 'l', 'y']
  | 8 => ['A', 'u', 'g', 'u', 's', 't']
  | 9 => ['S', 'e', 'p', 't', 'e', 'm', 'b', 'e', 'r']
  | 10 => ['O', 'c', 't', 'o', 'b', 'e', 'r']
  | 11 => ['N', 'o', 'v', 'e', 'm', 'b', 'e', 'r']
  | 12 => ['D', 'e', 'c', 'e', 'm', 'b', 'e', 'r']
  | _ => []

/-- Code point after the ASCII lower-casing that CPython's case-insensitive
`_strptime` regex performs on both pattern and input. -/
def lowerVal (c : Char) : Nat :=
  if 65 ≤ c.toNat ∧ c.toNat ≤ 90 then c.toNat + 32 else c.toNat

/-- Case-insensitive character match (the `%B` group is compiled with
`re.IGNORECASE`). -/
def charEqCI (a b : Char) : Bool := lowerVal a == lowerVal b

/-- Match `p` as a case-insensitive prefix of `s`, returning the remainder. -/
def dropPrefixCI : List Char → List Char → Option (List Char)
  | [], s => some s
  | _ :: _, [] => none
  | p :: ps, c :: cs => if charEqCI p c then dropPrefixCI ps cs else none

/-- The month numbers in the order the `%B` alternation tries them (no
English month name is a prefix of another, so this order is equivalent to
the longest-first order `_strptime` sorts them into). -/
def monthOrder : List Nat := [1, 2, 3, 4, 5, 6, 7, 8, 9, 10, 11, 12]

/-- Try each month name as a case-insensitive prefix of `s`. -/
def findMonth : List Nat → List Char → Option (Nat × List Char)
  | [], _ => none
  | m :: ms, s =>
    match dropPrefixCI (monthChars m) s with
    | some r => some (m, r)
    | none => findMonth ms s

/-- Lean's whitespace test, standing for the regex class `\s`. -/
def isSpaceChar (c : Char) : Bool := c.isWhitespace

/-- `datetime.strptime(s, "%B %d, %Y")`: month name (case-insensitive), one
or more whitespace characters (format whitespace becomes `\s+`), the `%d`
group, a comma, `\s+`, and exactly four year digits; the whole input must be
consumed and the fields must form a valid `datetime`. -/
def strptimeDisplayCore (s : List Char) : Option (Nat × Nat × Nat) :=
  match findMonth monthOrder s with
  | none => none
  | some (m, r1) =>
    let sp1 := r1.takeWhile isSpaceChar
    if sp1 = [] then none
    else
      match parseDayField (r1.dropWhile isSpaceChar) with
      | none => none
      | some (d, r3) =>
        match r3 with
        | [] => none
        | c :: r4 =>
          if c = ',' then
            let sp2 := r4.takeWhile isSpaceChar
            if sp2 = [] then none
            else
              match parse4Digits (r4.dropWhile isSpaceChar) with
              | none => none
              | some (y, r5) => if r5 = [] then mkDate y m d else none
          else none

/-- `date_obj.strftime('%B %d, %Y')`: full month name, zero-padded day,
comma, and the unpadded year. -/
def strftimeDisplayCore (y m d : Nat) : List Char :=
  monthChars m ++ ' ' :: (pad2 d ++ ',' :: ' ' :: yearChars y)

/-- `date_obj.strftime('%Y-%m-%d')`: unpadded year, zero-padded month and
day. -/
def strftimeYMDCore (y m d : Nat) : List Char :=
  yearChars y ++ '-' :: (pad2 m ++ '-' :: pad2 d)

/-- `BlogGenerator.format_date`: parse as `%Y-%m-%d` and re-render as
`%B %d, %Y`; on `ValueError` return the input unchanged. -/
def format_date (date_str : String) : String :=
  match strptimeYMDCore date_str.data with
  | some (y, m, d) => String.mk (strftimeDisplayCore y m d)
  | none => date_str

/-- `BlogGenerator.parse_display_date`: parse as `%B %d, %Y` and re-render
as `%Y-%m-%d`; on `ValueError` return the input unchanged. -/
def parse_display_date (display_date : String) : String :=
  match strptimeDisplayCore display_date.data with
  | some (y, m, d) => String.mk (strftimeYMDCore y m d)
  | none => display_date

/-- `datetime` comparison on dates (`new_date_obj > existing_date_obj` is
`dateLtB existing new`): lexicographic on (year, month, day). -/
def dateLtB (a b : Nat × Nat × Nat) : Bool :=
  decide (a.1 < b.1 ∨ (a.1 = b.1 ∧ (a.2.1 < b.2.1 ∨ (a.2.1 = b.2.1 ∧ a.2.2 < b.2.2))))

/-- Python `str.replace('.md', '.html')`: every non-overlapping occurrence of
`.md`, scanned left to right, is replaced, not only a trailing extension. -/
def md_to_html : List Char → List Char
  | '.' :: 'm' :: 'd' :: rest => '.' :: 'h' :: 't' :: 'm' :: 'l' :: md_to_html rest
  | c :: rest => c :: md_to_html rest
  | [] => []

/-- `pathlib.Path(s).name`: the part of the path after the last slash. -/
def pathName (l : List Char) : List Char :=
  (l.reverse.takeWhile (fun c => c ≠ '/')).reverse

/-- `pathlib.Path(name).stem` for a single path component: drop the suffix
starting at the last dot, provided that dot is neither the first nor the
last character of the name. -/
def pathStem (name : List Char) : List Char :=
  let after := name.reverse.takeWhile (fun c => c ≠ '.')
  if after.length = name.length then name
  else
    let i := name.length - after.length - 1
    if 0 < i ∧ i + 1 < name.length then name.take i else name

/-- The `BlogPost` record built by `parse_markdown_file`. -/
structure BlogPost where
  title : String
  date : String
  description : String
  content : String
  filename : String
deriving DecidableEq

/-- `BlogPost.html_filename = filename.replace('.md', '.html')`. -/
def html_filename (p : BlogPost) : String := String.mk (md_to_html p.filename.data)

/-- `BlogPost.url = f"blog/(html_filename)"`. -/
def postUrl (p : BlogPost) : String := "blog/" ++ html_filename p

/-- What the reconciler reads out of one `article.blog-post` element: the
first `a` descendant's `href` (when the element has one), the link text, the
first `time` descendant's stripped text, and the first `p` descendant's
stripped text. -/
structure Article where
  href : Option String
  title : String
  time : Option String
  desc : Option String
deriving DecidableEq

/-- One child node of the blog `section`: the `h2` heading, an
`article.blog-post` entry, or any other sibling (text, unrelated markup). -/
inductive Node where
  | heading (text : String)
  | article (a : Article)
  | other (text : String)
deriving DecidableEq

/-- The parsed `index.html`: the markup outside the blog section
(abstracted) and the blog section's children when a
`section` with id `blog` exists. -/
structure IndexDoc where
  rest : String
  blogSection : Option (List Node)
deriving DecidableEq

/-- The message `add_or_update_blog_post` prints on each path. -/
inductive Outcome where
  | errMissingIndex
  | errMissingSection
  | updated
  | inserted
  | insertedAtEnd
deriving DecidableEq

def isHeading : Node → Bool
  | Node.heading _ => true
  | _ => false

def isArticle : Node → Bool
  | Node.article _ => true
  | _ => false

/-- The `article` the given post renders to (`soup.new_tag` block of
`add_or_update_blog_post` and of `rebuild_blog_section`): a link to
`post.url` titled `post.title`, a `time` with the formatted date, and a
`p` only when the description is non-empty (truthiness test). -/
def newArticle (p : BlogPost) : Article :=
  { href := some (postUrl p)
    title := p.title
    time := some (format_date p.date)
    desc := if p.description = "" then none else some p.description }

/-- The key `get_existing_blog_posts_from_html` files an article under:
`Path(link['href']).name`, provided the article has a link with a truthy
(non-empty) `href`. -/
def articleFilename (a : Article) : Option String :=
  match a.href with
  | some u => if u = "" then none else some (String.mk (pathName u.data))
  | none => none

def isMatch (fname : String) (n : Node) : Bool :=
  match n with
  | Node.article a => articleFilename a == some fname
  | _ => false

/-- Index of the first element satisfying `p`. -/
def firstIdx {α : Type} (p : α → Bool) : List α → Option Nat
  | [] => none
  | x :: rest => if p x then some 0 else (firstIdx p rest).map (· + 1)

/-- Position of the article that `existing_posts[post.html_filename]` holds:
the dict is built in document order, so a duplicate filename keeps the last
matching article. -/
def lastMatchIdx (sec : List Node) (fname : String) : Option Nat :=
  match firstIdx (isMatch fname) sec.reverse with
  | some k => some (sec.length - 1 - k)
  | none => none

/-- One comparison of the insertion scan: recover `YYYY-MM-DD` from the
displayed date and test `new_date_obj > existing_date_obj`; a `ValueError`
(unparseable stored date) makes the comparison false (`continue`). -/
def cmpNewer (nd : Nat × Nat × Nat) (display : String) : Bool :=
  match strptimeYMDCore (parse_display_date display).data with
  | some ed => dateLtB ed nd
  | none => false

/-- Whether the scan inserts before this node: it must be an article with a
`time` element whose date parses strictly earlier than the new post's. -/
def entryEarlierThan (nd : Nat × Nat × Nat) : Node → Bool
  | Node.article a =>
    match a.time with
    | some t => cmpNewer nd t
    | none => false
  | _ => false

/-- The node the new article is inserted before in the no-match case. -/
def insertScanIdx (sec : List Node) (nd : Nat × Nat × Nat) : Option Nat :=
  firstIdx (entryEarlierThan nd) sec

/-- Insert `x` at position `n` of the list (before the current `n`-th node). -/
def insertAt {α : Type} : List α → Nat → α → List α
  | l, 0, x => x :: l
  | [], _ + 1, x => [x]
  | c :: t, n + 1, x => c :: insertAt t n x

/-- The mutation `add_or_update_blog_post` performs on the blog section that
is serialized, together with the outcome it reports.

Match case: `existing_posts[...]['element']` belongs to the soup built by
the second parse inside `get_existing_blog_posts_from_html`, so
`replace_with` mutates that discarded tree; the soup that is written out is
the first parse, whose section is unchanged.

No-match case: if the post's own date fails `strptime` the outer
`except ValueError` appends the article at the end of the section.
Otherwise the scan inserts before the first article with a strictly earlier
date; failing that, the article goes right after the `h2` when the heading
exists and has a next sibling, and at the end of the section otherwise. -/
def reconcileSection (sec : List Node) (post : BlogPost) : List Node × Outcome :=
  let newA := Node.article (newArticle post)
  match lastMatchIdx sec (html_filename post) with
  | some _ => (sec, Outcome.updated)
  | none =>
    match strptimeYMDCore post.date.data with
    | none => (sec ++ [newA], Outcome.insertedAtEnd)
    | some nd =>
      match insertScanIdx sec nd with
      | some i => (insertAt sec i newA, Outcome.inserted)
      | none =>
        match firstIdx isHeading sec with
        | some j =>
          if j + 1 < sec.length then (insertAt sec (j + 1) newA, Outcome.inserted)
          else (sec ++ [newA], Outcome.inserted)
        | none => (sec ++ [newA], Outcome.inserted)

/-- `BlogGenerator.add_or_update_blog_post`, as a function from the on-disk
index document to the document it leaves on disk: a missing file or a
missing blog section is fatal (reported, nothing written); otherwise the
mutated tree is serialized back. -/
def add_or_update_blog_post (disk : Option IndexDoc) (post : BlogPost) :
    Option IndexDoc × Outcome :=
  match disk with
  | none => (none, Outcome.errMissingIndex)
  | some doc =>
    match doc.blogSection with
    | none => (some doc, Outcome.errMissingSection)
    | some sec =>
      let r := reconcileSection sec post
      (some { rest := doc.rest, blogSection := some r.1 }, r.2)

/-- The mutation `rebuild_blog_section` performs on the blog section: keep
only the first `h2` (when present) and append every post's article in the
given order. -/
def rebuildSection (sec : List Node) (posts : List BlogPost) : List Node :=
  (match sec.find? isHeading with
   | some h => [h]
   | none => []) ++ posts.map (fun p => Node.article (newArticle p))

/-- `BlogGenerator.rebuild_blog_section` on the on-disk index document:
missing file or missing blog section is fatal (nothing written). -/
def rebuild_blog_section (disk : Option IndexDoc) (posts : List BlogPost) :
    Option IndexDoc :=
  match disk with
  | none => none
  | some doc =>
    match doc.blogSection with
    | none => some doc
    | some sec => some { rest := doc.rest, blogSection := some (rebuildSection sec posts) }

/-- `BlogGenerator.verify_blog_integrity` on the three stem sets it
cross-checks (markdown sources, rendered HTML files, index entries): a
missing index file fails; a markdown stem without an HTML file or without an
index entry clears `all_good`; the two orphan loops only print. -/
def verify_blog_integrity (indexExists : Bool) (mdStems htmlStems indexStems : List String) :
    Bool :=
  if indexExists = false then false
  else
    let g1 := mdStems.foldl (fun g s => if htmlStems.contains s then g else false) true
    let g2 := mdStems.foldl (fun g s => if indexStems.contains s then g else false) g1
    g2

/-- The date a stored entry displays, as the insertion scan recovers it. -/
def articleDate? : Node → Option (Nat × Nat × Nat)
  | Node.article a =>
    (match a.time with
     | some t => strptimeYMDCore (parse_display_date t).data
     | none => none)
  | _ => none

/-- The parsed dates of the section's entries, in document order. -/
def sectionDates (sec : List Node) : List (Nat × Nat × Nat) := sec.filterMap articleDate?

/-- Descending (newest-first) order of a date sequence. -/
def sortedDescB : List (Nat × Nat × Nat) → Bool
  | [] => true
  | [_] => true
  | a :: b :: r => !dateLtB a b && sortedDescB (b :: r)

end BlogGen

namespace BlogGen

/-! ## Helper lemmas -/

theorem firstIdx_lt_length {α : Type} (p : α → Bool) :
    ∀ (l : List α) (i : Nat), firstIdx p l = some i → i < l.length := by
  intro l
  induction l with
  | nil => intro i h; simp [firstIdx] at h
  | cons x rest ih =>
    intro i h
    rw [firstIdx] at h
    split at h
    · injection h with h
      simp only [List.length_cons]
      omega
    · rcases hmap : firstIdx p rest with _ | k
      · rw [hmap] at h; simp at h
      · rw [hmap] at h
        simp only [Option.map_some'] at h
        injection h with h
        have := ih k hmap
        simp only [List.length_cons]
        omega

theorem firstIdx_eq_none {α : Type} (p : α → Bool) :
    ∀ (l : List α), (∀ x ∈ l, p x = false) → firstIdx p l = none := by
  intro l
  induction l with
  | nil => intro _; rfl
  | cons x rest ih =>
    intro h
    have hx := h x (by simp)
    simp [firstIdx, hx, ih (fun y hy => h y (by simp [hy]))]

theorem insertAt_length_eq_append {α : Type} :
    ∀ (l : List α) (x : α), insertAt l l.length x = l ++ [x] := by
  intro l x
  induction l with
  | nil => rfl
  | cons c t ih => simp [insertAt, List.length_cons, ih]

theorem isMatch_of_not_article (fname : String) (n : Node) (h : isArticle n = false) :
    isMatch fname n = false := by
  cases n <;> simp_all [isMatch, isArticle]

theorem entryEarlierThan_of_not_article (nd : Nat × Nat × Nat) (n : Node)
    (h : isArticle n = false) : entryEarlierThan nd n = false := by
  cases n <;> simp_all [entryEarlierThan, isArticle]

theorem lastMatchIdx_eq_none (sec : List Node) (fname : String)
    (h : ∀ n ∈ sec, isMatch fname n = false) : lastMatchIdx sec fname = none := by
  unfold lastMatchIdx
  rw [firstIdx_eq_none _ _ (fun n hn => h n (List.mem_reverse.mp hn))]

theorem reconcile_no_match_inserts (sec : List Node) (post : BlogPost)
    (h : lastMatchIdx sec (html_filename post) = none) :
    ∃ i, i ≤ sec.length ∧
      (reconcileSection sec post).1 = insertAt sec i (Node.article (newArticle post)) := by
  rcases hdate : strptimeYMDCore post.date.data with _ | nd
  · exact ⟨sec.length, Nat.le_refl _,
      by simp [reconcileSection, h, hdate, insertAt_length_eq_append]⟩
  · rcases hscan : insertScanIdx sec nd with _ | i
    · rcases hh : firstIdx isHeading sec with _ | j
      · exact ⟨sec.length, Nat.le_refl _,
          by simp [reconcileSection, h, hdate, hscan, hh, insertAt_length_eq_append]⟩
      · have hj := firstIdx_lt_length _ _ _ hh
        by_cases hlt : j + 1 < sec.length
        · exact ⟨j + 1, by omega,
            by simp [reconcileSection, h, hdate, hscan, hh, hlt]⟩
        · exact ⟨sec.length, Nat.le_refl _,
            by simp [reconcileSection, h, hdate, hscan, hh, hlt, insertAt_length_eq_append]⟩
    · have hi := firstIdx_lt_length _ _ _ hscan
      exact ⟨i, by omega, by simp [reconcileSection, h, hdate, hscan]⟩

theorem verify_foldl (q : String → Bool) :
    ∀ (l : List String) (g : Bool),
      l.foldl (fun g s => if q s then g else false) g = (g && l.all q) := by
  intro l
  induction l with
  | nil => intro g; simp
  | cons x rest ih =>
    intro g
    rw [List.foldl_cons, ih, List.all_cons]
    cases hq : q x <;> simp [hq, Bool.and_assoc]

theorem takeWhile_all {α : Type} (p : α → Bool) :
    ∀ (xs : List α), (∀ c ∈ xs, p c = true) → xs.takeWhile p = xs := by
  intro xs
  induction xs with
  | nil => intro _; rfl
  | cons x t ih =>
    intro h
    rw [List.takeWhile_cons, if_pos (h x (by simp)), ih (fun c hc => h c (by simp [hc]))]

theorem takeWhile_append_all {α : Type} (p : α → Bool) :
    ∀ (xs ys : List α), (∀ c ∈ xs, p c = true) →
      (xs ++ ys).takeWhile p = xs ++ ys.takeWhile p := by
  intro xs
  induction xs with
  | nil => intro ys _; simp
  | cons x t ih =>
    intro ys h
    rw [List.cons_append, List.takeWhile_cons, if_pos (h x (by simp)),
      ih ys (fun c hc => h c (by simp [hc])), List.cons_append]

theorem md_to_html_append_md :
    ∀ (s : List Char), ¬ (['.', 'm', 'd'] <:+: s) →
      md_to_html (s ++ ['.', 'm', 'd']) = s ++ ['.', 'h', 't', 'm', 'l'] := by
  intro s
  induction s with
  | nil => intro _; rfl
  | cons c t ih =>
    intro hinf
    have htail : ¬ (['.', 'm', 'd'] <:+: t) := fun h => hinf (List.infix_cons h)
    rw [List.cons_append, md_to_html.eq_def]
    split
    · rename_i rest heq
      exfalso
      rw [List.cons.injEq] at heq
      obtain ⟨hc, ht⟩ := heq
      rcases t with _ | ⟨x, _ | ⟨y, t1⟩⟩
      · simp at ht
      · simp [List.cons.injEq] at ht
      · rw [List.cons_append, List.cons_append, List.cons.injEq, List.cons.injEq] at ht
        obtain ⟨hx, hy, _⟩ := ht
        exact hinf ⟨[], t1, by simp [hc, hx, hy]⟩
    · rename_i c1 rest1 heq
      rw [List.cons.injEq] at heq
      obtain ⟨hc, ht⟩ := heq
      rw [← hc, ← ht, ih htail, List.cons_append]
    · rename_i heq
      exact absurd heq (by simp)

theorem pathName_append_slash (a b : List Char) (h : ∀ c ∈ b, c ≠ '/') :
    pathName (a ++ '/' :: b) = b := by
  unfold pathName
  rw [List.reverse_append, List.reverse_cons, List.append_assoc,
    takeWhile_append_all _ b.reverse _
      (fun c hc => by simp only [decide_eq_true_eq]; exact h c (List.mem_reverse.mp hc)),
    List.singleton_append, List.takeWhile_cons, if_neg (by decide)]
  simp

theorem pathStem_append_dot (stem ext : List Char) (hs : stem ≠ [])
    (he : ext ≠ []) (hd : ∀ c ∈ ext, c ≠ '.') :
    pathStem (stem ++ '.' :: ext) = stem := by
  have hrev : (stem ++ '.' :: ext).reverse = ext.reverse ++ '.' :: stem.reverse := by
    rw [List.reverse_append, List.reverse_cons, List.append_assoc, List.singleton_append]
  have htw : (stem ++ '.' :: ext).reverse.takeWhile (fun c => c ≠ '.') = ext.reverse := by
    rw [hrev,
      takeWhile_append_all _ ext.reverse _
        (fun c hc => by simp only [decide_eq_true_eq]; exact hd c (List.mem_reverse.mp hc)),
      List.takeWhile_cons, if_neg (by decide)]
    simp
  have hstem : 0 < stem.length := List.length_pos.mpr hs
  have hext : 0 < ext.length := List.length_pos.mpr he
  have hlen : (stem ++ '.' :: ext).length = stem.length + ext.length + 1 := by
    simp [List.length_append]
    omega
  unfold pathStem
  simp only [htw, List.length_reverse, hlen]
  rw [if_neg (by omega)]
  have hi : stem.length + ext.length + 1 - ext.length - 1 = stem.length := by omega
  rw [hi, if_pos ⟨hstem, by omega⟩]
  exact List.take_left stem ('.' :: ext)

theorem uint32_le_iff (a b : UInt32) : a ≤ b ↔ a.toNat ≤ b.toNat := by
  rw [UInt32.le_def, BitVec.le_def]
  exact Iff.rfl

theorem char_eq_iff (a b : Char) : a = b ↔ a.toNat = b.toNat :=
  ⟨fun h => h ▸ rfl, fun h => Char.ext (UInt32.toNat.inj h)⟩

theorem char_le_iff (a b : Char) : a ≤ b ↔ a.toNat ≤ b.toNat := by
  rw [Char.le_def, uint32_le_iff]
  exact Iff.rfl

theorem isDigit_iff (c : Char) : c.isDigit = true ↔ 48 ≤ c.toNat ∧ c.toNat ≤ 57 := by
  unfold Char.isDigit
  rw [Bool.and_eq_true, decide_eq_true_eq, decide_eq_true_eq, ge_iff_le,
    uint32_le_iff, uint32_le_iff]
  exact Iff.rfl

theorem nat_lt10_all (P : Nat → Bool) (h : (List.range 10).all P = true) :
    ∀ k, k < 10 → P k = true := by
  intro k hk
  exact List.all_eq_true.mp h k (List.mem_range.mpr hk)

theorem digitChar_toNat (k : Nat) (hk : k < 10) : (digitChar k).toNat = 48 + k := by
  have h := nat_lt10_all (fun k => (digitChar k).toNat == 48 + k) (by decide) k hk
  simp only [beq_iff_eq] at h
  exact h

theorem isDigit_digitChar (k : Nat) (hk : k < 10) : (digitChar k).isDigit = true :=
  nat_lt10_all (fun k => (digitChar k).isDigit) (by decide) k hk

theorem isSpaceChar_digitChar (k : Nat) (hk : k < 10) : isSpaceChar (digitChar k) = false := by
  have h := nat_lt10_all (fun k => !(isSpaceChar (digitChar k))) (by decide) k hk
  simpa using h

theorem charToDigit_digitChar (k : Nat) (hk : k < 10) : charToDigit (digitChar k) = k := by
  unfold charToDigit
  rw [digitChar_toNat k hk]
  omega

theorem digit_eq_digitChar (c : Char) (h : c.isDigit = true) :
    digitChar (charToDigit c) = c := by
  have hb := (isDigit_iff c).mp h
  rw [char_eq_iff, digitChar_toNat _ (by unfold charToDigit; omega)]
  unfold charToDigit
  omega

theorem digit_char_cases (c : Char) (h : c.isDigit = true) :
    c = '0' ∨ c = '1' ∨ c = '2' ∨ c = '3' ∨ c = '4' ∨ c = '5' ∨ c = '6' ∨ c = '7'
      ∨ c = '8' ∨ c = '9' := by
  have hb := (isDigit_iff c).mp h
  have hn : c.toNat = 48 ∨ c.toNat = 49 ∨ c.toNat = 50 ∨ c.toNat = 51 ∨ c.toNat = 52
      ∨ c.toNat = 53 ∨ c.toNat = 54 ∨ c.toNat = 55 ∨ c.toNat = 56 ∨ c.toNat = 57 := by
    omega
  rcases hn with h | h | h | h | h | h | h | h | h | h
  · exact Or.inl ((char_eq_iff c '0').mpr h)
  · exact Or.inr (Or.inl ((char_eq_iff c '1').mpr h))
  · exact Or.inr (Or.inr (Or.inl ((char_eq_iff c '2').mpr h)))
  · exact Or.inr (Or.inr (Or.inr (Or.inl ((char_eq_iff c '3').mpr h))))
  · exact Or.inr (Or.inr (Or.inr (Or.inr (Or.inl ((char_eq_iff c '4').mpr h)))))
  · exact Or.inr (Or.inr (Or.inr (Or.inr (Or.inr (Or.inl ((char_eq_iff c '5').mpr h))))))
  · exact Or.inr (Or.inr (Or.inr (Or.inr (Or.inr (Or.inr (Or.inl
      ((char_eq_iff c '6').mpr h)))))))
  · exact Or.inr (Or.inr (Or.inr (Or.inr (Or.inr (Or.inr (Or.inr (Or.inl
      ((char_eq_iff c '7').mpr h))))))))
  · exact Or.inr (Or.inr (Or.inr (Or.inr (Or.inr (Or.inr (Or.inr (Or.inr (Or.inl
      ((char_eq_iff c '8').mpr h)))))))))
  · exact Or.inr (Or.inr (Or.inr (Or.inr (Or.inr (Or.inr (Or.inr (Or.inr (Or.inr
      ((char_eq_iff c '9').mpr h)))))))))

theorem daysInMonth_le (y m : Nat) : daysInMonth y m ≤ 31 := by
  unfold daysInMonth
  split_ifs <;> omega

theorem mkDate_month_out (y m d : Nat) (h : m = 0 ∨ 13 ≤ m) : mkDate y m d = none := by
  unfold mkDate
  rw [if_neg]
  rintro ⟨_, _, h3, h4, _, _⟩
  omega

theorem mkDate_day_out (y m d : Nat) (h : d = 0 ∨ 32 ≤ d) : mkDate y m d = none := by
  unfold mkDate
  rw [if_neg]
  rintro ⟨_, _, _, _, h5, h6⟩
  have := daysInMonth_le y m
  omega

theorem findMonth_self (m : Nat) (h1 : 1 ≤ m) (h2 : m ≤ 12) (rest : List Char) :
    findMonth monthOrder (monthChars m ++ rest) = some (m, rest) := by
  interval_cases m <;> rfl

theorem parseDayField_pad2 (d : Nat) (h1 : 1 ≤ d) (h2 : d ≤ 31) (rest : List Char) :
    parseDayField (pad2 d ++ rest) = some (d, rest) := by
  interval_cases d <;> rfl

theorem parse4Digits_pad4 (y : Nat) (hy : y ≤ 9999) (rest : List Char) :
    parse4Digits (pad4 y ++ rest) = some (y, rest) := by
  have m1 : y / 1000 % 10 < 10 := Nat.mod_lt _ (by omega)
  have m2 : y / 100 % 10 < 10 := Nat.mod_lt _ (by omega)
  have m3 : y / 10 % 10 < 10 := Nat.mod_lt _ (by omega)
  have m4 : y % 10 < 10 := Nat.mod_lt _ (by omega)
  simp only [pad4, List.cons_append, List.nil_append, parse4Digits]
  rw [if_pos ⟨isDigit_digitChar _ m1, isDigit_digitChar _ m2, isDigit_digitChar _ m3,
    isDigit_digitChar _ m4⟩]
  rw [charToDigit_digitChar _ m1, charToDigit_digitChar _ m2, charToDigit_digitChar _ m3,
    charToDigit_digitChar _ m4]
  have hval : ((y / 1000 % 10 * 10 + y / 100 % 10) * 10 + y / 10 % 10) * 10 + y % 10 = y := by
    omega
  rw [hval]

theorem strptimeDisplay_digit_start (c : Char) (hc : c.isDigit = true) (rest : List Char) :
    strptimeDisplayCore (c :: rest) = none := by
  have hb := (isDigit_iff c).mp hc
  have hlow : lowerVal c ≤ 57 := by
    unfold lowerVal
    rw [if_neg (by omega)]
    omega
  have hne : ∀ (x : Char), 97 ≤ lowerVal x → charEqCI x c = false := by
    intro x hx
    unfold charEqCI
    rw [beq_eq_false_iff_ne]
    omega
  have hJ := hne 'J' (by decide)
  have hF := hne 'F' (by decide)
  have hM := hne 'M' (by decide)
  have hA := hne 'A' (by decide)
  have hS := hne 'S' (by decide)
  have hO := hne 'O' (by decide)
  have hN := hne 'N' (by decide)
  have hD := hne 'D' (by decide)
  unfold strptimeDisplayCore
  have hfm : findMonth monthOrder (c :: rest) = none := by
    simp only [monthOrder, findMonth, monthChars, dropPrefixCI, hJ, hF, hM, hA, hS, hO,
      hN, hD, Bool.false_eq_true, if_false]
  rw [hfm]

theorem yearChars_ge1000 (y : Nat) (hy : 1000 ≤ y) : yearChars y = pad4 y := by
  unfold yearChars
  rw [if_neg (by omega), if_neg (by omega), if_neg (by omega)]

theorem strptimeDisplay_strftime (y m d : Nat) (hy : 1000 ≤ y) (hv : validDate y m d) :
    strptimeDisplayCore (strftimeDisplayCore y m d) = some (y, m, d) := by
  obtain ⟨h1, h2, h3, h4, h5, h6⟩ := hv
  have hd31 : d ≤ 31 := Nat.le_trans h6 (daysInMonth_le y m)
  have hk1 : d / 10 % 10 < 10 := Nat.mod_lt _ (by omega)
  have hy1 : y / 1000 % 10 < 10 := Nat.mod_lt _ (by omega)
  unfold strftimeDisplayCore strptimeDisplayCore
  rw [yearChars_ge1000 y hy]
  rw [findMonth_self m h3 h4]
  have ht : (' ' :: (pad2 d ++ ',' :: ' ' :: pad4 y)).takeWhile isSpaceChar = [' '] := by
    rw [List.takeWhile_cons, if_pos (by decide)]
    simp only [pad2, List.cons_append]
    rw [List.takeWhile_cons, if_neg (by simp [isSpaceChar_digitChar _ hk1])]
  have hdrop : (' ' :: (pad2 d ++ ',' :: ' ' :: pad4 y)).dropWhile isSpaceChar
      = pad2 d ++ ',' :: ' ' :: pad4 y := by
    rw [List.dropWhile_cons, if_pos (by decide)]
    simp only [pad2, List.cons_append]
    rw [List.dropWhile_cons, if_neg (by simp [isSpaceChar_digitChar _ hk1])]
  simp only [ht, hdrop]
  rw [if_neg (by simp)]
  rw [parseDayField_pad2 d h5 hd31]
  dsimp only
  rw [if_pos rfl]
  have ht2 : (' ' :: pad4 y).takeWhile isSpaceChar = [' '] := by
    rw [List.takeWhile_cons, if_pos (by decide)]
    simp only [pad4]
    rw [List.takeWhile_cons, if_neg (by simp [isSpaceChar_digitChar _ hy1])]
  have hdrop2 : (' ' :: pad4 y).dropWhile isSpaceChar = pad4 y := by
    rw [List.dropWhile_cons, if_pos (by decide)]
    simp only [pad4]
    rw [List.dropWhile_cons, if_neg (by simp [isSpaceChar_digitChar _ hy1])]
  simp only [ht2, hdrop2]
  rw [if_neg (by simp)]
  have hp4 := parse4Digits_pad4 y h2 []
  rw [List.append_nil] at hp4
  rw [hp4]
  dsimp only
  rw [if_pos rfl]
  unfold mkDate
  rw [if_pos ⟨h1, h2, h3, h4, h5, h6⟩]

theorem strptimeYMDCore_eq (s : List Char) :
    strptimeYMDCore s
      = (match parse4Digits s with
         | none => none
         | some (y, r1) =>
           match r1 with
           | [] => none
           | c1 :: r2 => if c1 = '-' then monthCont y (parseMonthField r2) else none) := by
  rfl

theorem strptimeYMD_day_part (y m : Nat) (g h : Char) (hg : g.isDigit = true)
    (hh : h.isDigit = true) :
    dayCont y m (parseDayField [g, h])
      = mkDate y m ((charToDigit g) * 10 + charToDigit h) := by
  rcases digit_char_cases g hg with rfl | rfl | rfl | rfl | rfl | rfl | rfl | rfl | rfl | rfl <;>
    rcases digit_char_cases h hh with rfl | rfl | rfl | rfl | rfl | rfl | rfl | rfl | rfl | rfl <;>
      first
        | rfl
        | exact (mkDate_day_out y m _ (by decide)).symm

theorem strptimeYMD_month_part (y : Nat) (e f g h : Char) (he : e.isDigit = true)
    (hf : f.isDigit = true) (hg : g.isDigit = true) (hh : h.isDigit = true) :
    monthCont y (parseMonthField [e, f, '-', g, h])
      = mkDate y ((charToDigit e) * 10 + charToDigit f)
          ((charToDigit g) * 10 + charToDigit h) := by
  rcases digit_char_cases e he with rfl | rfl | rfl | rfl | rfl | rfl | rfl | rfl | rfl | rfl <;>
    rcases digit_char_cases f hf with rfl | rfl | rfl | rfl | rfl | rfl | rfl | rfl | rfl | rfl <;>
      first
        | exact strptimeYMD_day_part y _ g h hg hh
        | exact (mkDate_month_out y _ _ (by decide)).symm

theorem strptimeYMD_exact (a b c d e f g h : Char) (ha : a.isDigit = true)
    (hb : b.isDigit = true) (hc : c.isDigit = true) (hd0 : d.isDigit = true)
    (he : e.isDigit = true) (hf : f.isDigit = true) (hg : g.isDigit = true)
    (hh : h.isDigit = true) :
    strptimeYMDCore [a, b, c, d, '-', e, f, '-', g, h]
      = mkDate
          ((((charToDigit a) * 10 + charToDigit b) * 10 + charToDigit c) * 10 + charToDigit d)
          ((charToDigit e) * 10 + charToDigit f)
          ((charToDigit g) * 10 + charToDigit h) := by
  rw [strptimeYMDCore_eq]
  have h4d : parse4Digits [a, b, c, d, '-', e, f, '-', g, h]
      = some ((((charToDigit a) * 10 + charToDigit b) * 10 + charToDigit c) * 10
                + charToDigit d,
              '-' :: e :: f :: '-' :: g :: h :: []) := by
    simp only [parse4Digits]
    rw [if_pos ⟨ha, hb, hc, hd0⟩]
  rw [h4d]
  dsimp only
  rw [if_pos rfl]
  exact strptimeYMD_month_part _ e f g h he hf hg hh

/-! ## Claims -/

/-- C4: `rebuild_blog_section` is idempotent: running it twice on the same
post list leaves a blog section (and index document) structurally identical
to running it once. -/
theorem c4_rebuild_idempotent (disk : Option IndexDoc) (posts : List BlogPost) :
    rebuild_blog_section (rebuild_blog_section disk posts) posts
      = rebuild_blog_section disk posts := by
  have core : ∀ sec, rebuildSection (rebuildSection sec posts) posts
      = rebuildSection sec posts := by
    intro sec
    have hmap : (posts.map (fun p => Node.article (newArticle p))).find? isHeading = none := by
      rw [List.find?_eq_none]
      intro x hx
      rcases List.mem_map.mp hx with ⟨p, _, rfl⟩
      simp [isHeading]
    unfold rebuildSection
    rcases hf : sec.find? isHeading with _ | h
    · simp [hmap]
    · have hh : isHeading h = true := List.find?_some hf
      simp [List.find?_cons_of_pos, hh]
  rcases disk with _ | doc
  · rfl
  · rcases hb : doc.blogSection with _ | sec
    · simp [rebuild_blog_section, hb]
    · simp [rebuild_blog_section, hb, core]

/-- C5: a missing `index.html` or a missing blog section is fatal: the
error outcome is reported and the on-disk index document is unchanged (no
write is performed). -/
theorem c5_missing_index_or_section_no_write (post : BlogPost) :
    add_or_update_blog_post none post = (none, Outcome.errMissingIndex)
    ∧ ∀ (r : String),
        add_or_update_blog_post (some { rest := r, blogSection := none }) post
          = (some { rest := r, blogSection := none }, Outcome.errMissingSection) :=
  ⟨rfl, fun _ => rfl⟩

/-- C9: when the incoming post's own date string fails to parse as
`YYYY-MM-DD` in the no-match case, the operation does not fail: the new
entry is appended at the very end of the blog section (after all existing
entries, not after the heading) and the index is still persisted. -/
theorem c9_unparseable_post_date_appends (r : String) (sec : List Node) (post : BlogPost)
    (hm : lastMatchIdx sec (html_filename post) = none)
    (hdate : strptimeYMDCore post.date.data = none) :
    add_or_update_blog_post (some { rest := r, blogSection := some sec }) post
      = (some { rest := r, blogSection := some (sec ++ [Node.article (newArticle post)]) },
         Outcome.insertedAtEnd) := by
  simp [add_or_update_blog_post, reconcileSection, hm, hdate]

/-- C10 amended: for every date string in the exact `YYYY-MM-DD` shape
(four digits, dash, two digits, dash, two digits) whose year is at least
1000 (leading year digit nonzero), `parse_display_date (format_date s) = s`
— formatting to the display form and parsing back are mutually inverse —
and each of the two functions returns its input unchanged whenever the
input does not match its expected format (the `except ValueError` path).
The year restriction is forced: glibc `strftime` prints `%Y` unpadded, so
a year below 1000 renders with fewer than the four digits `%Y` requires
when parsing back (see the counterexample at `0005-01-01`). -/
theorem c10_display_date_roundtrip :
    (∀ (a b c d e f g h : Char), a.isDigit = true → a ≠ '0' → b.isDigit = true →
        c.isDigit = true → d.isDigit = true → e.isDigit = true → f.isDigit = true →
        g.isDigit = true → h.isDigit = true →
        parse_display_date (format_date (String.mk [a, b, c, d, '-', e, f, '-', g, h]))
          = String.mk [a, b, c, d, '-', e, f, '-', g, h])
    ∧ (∀ s : String, strptimeYMDCore s.data = none → format_date s = s)
    ∧ (∀ s : String, strptimeDisplayCore s.data = none → parse_display_date s = s) := by
  refine ⟨?_, ?_, ?_⟩
  · intro a b c d e f g h ha ha0 hb hc hd0 he hf hg hh
    have hex := strptimeYMD_exact a b c d e f g h ha hb hc hd0 he hf hg hh
    have ha48 : a.toNat ≠ 48 := fun hh48 => ha0 ((char_eq_iff a '0').mpr hh48)
    have hy1000 : 1000 ≤
        (((charToDigit a) * 10 + charToDigit b) * 10 + charToDigit c) * 10 + charToDigit d := by
      have Ba := (isDigit_iff a).mp ha
      unfold charToDigit
      omega
    by_cases hv : validDate
        ((((charToDigit a) * 10 + charToDigit b) * 10 + charToDigit c) * 10 + charToDigit d)
        ((charToDigit e) * 10 + charToDigit f)
        ((charToDigit g) * 10 + charToDigit h)
    · have hsome : strptimeYMDCore (String.mk [a, b, c, d, '-', e, f, '-', g, h]).data
          = some
            ((((charToDigit a) * 10 + charToDigit b) * 10 + charToDigit c) * 10 + charToDigit d,
             (charToDigit e) * 10 + charToDigit f,
             (charToDigit g) * 10 + charToDigit h) := by
        show strptimeYMDCore [a, b, c, d, '-', e, f, '-', g, h] = _
        rw [hex]
        unfold mkDate
        rw [if_pos hv]
      have h1 : format_date (String.mk [a, b, c, d, '-', e, f, '-', g, h])
          = String.mk (strftimeDisplayCore
              ((((charToDigit a) * 10 + charToDigit b) * 10 + charToDigit c) * 10 + charToDigit d)
              ((charToDigit e) * 10 + charToDigit f)
              ((charToDigit g) * 10 + charToDigit h)) := by
        unfold format_date
        rw [hsome]
      rw [h1]
      have h2 : parse_display_date (String.mk (strftimeDisplayCore
            ((((charToDigit a) * 10 + charToDigit b) * 10 + charToDigit c) * 10 + charToDigit d)
            ((charToDigit e) * 10 + charToDigit f)
            ((charToDigit g) * 10 + charToDigit h)))
          = String.mk (strftimeYMDCore
              ((((charToDigit a) * 10 + charToDigit b) * 10 + charToDigit c) * 10 + charToDigit d)
              ((charToDigit e) * 10 + charToDigit f)
              ((charToDigit g) * 10 + charToDigit h)) := by
        unfold parse_display_date
        rw [show (String.mk (strftimeDisplayCore
            ((((charToDigit a) * 10 + charToDigit b) * 10 + charToDigit c) * 10 + charToDigit d)
            ((charToDigit e) * 10 + charToDigit f)
            ((charToDigit g) * 10 + charToDigit h))).data
          = strftimeDisplayCore
              ((((charToDigit a) * 10 + charToDigit b) * 10 + charToDigit c) * 10 + charToDigit d)
              ((charToDigit e) * 10 + charToDigit f)
              ((charToDigit g) * 10 + charToDigit h) from rfl]
        rw [strptimeDisplay_strftime _ _ _ hy1000 hv]
      rw [h2]
      have Ba := (isDigit_iff a).mp ha
      have Bb := (isDigit_iff b).mp hb
      have Bc := (isDigit_iff c).mp hc
      have Bd := (isDigit_iff d).mp hd0
      have Be := (isDigit_iff e).mp he
      have Bf := (isDigit_iff f).mp hf
      have Bg := (isDigit_iff g).mp hg
      have Bh := (isDigit_iff h).mp hh
      have hlist : strftimeYMDCore
          ((((charToDigit a) * 10 + charToDigit b) * 10 + charToDigit c) * 10 + charToDigit d)
          ((charToDigit e) * 10 + charToDigit f)
          ((charToDigit g) * 10 + charToDigit h)
          = [a, b, c, d, '-', e, f, '-', g, h] := by
        have e1 : ((((charToDigit a) * 10 + charToDigit b) * 10 + charToDigit c) * 10
            + charToDigit d) / 1000 % 10 = charToDigit a := by
          unfold charToDigit
          omega
        have e2 : ((((charToDigit a) * 10 + charToDigit b) * 10 + charToDigit c) * 10
            + charToDigit d) / 100 % 10 = charToDigit b := by
          unfold charToDigit
          omega
        have e3 : ((((charToDigit a) * 10 + charToDigit b) * 10 + charToDigit c) * 10
            + charToDigit d) / 10 % 10 = charToDigit c := by
          unfold charToDigit
          omega
        have e4 : ((((charToDigit a) * 10 + charToDigit b) * 10 + charToDigit c) * 10
            + charToDigit d) % 10 = charToDigit d := by
          unfold charToDigit
          omega
        have m1 : ((charToDigit e) * 10 + charToDigit f) / 10 % 10 = charToDigit e := by
          unfold charToDigit
          omega
        have m2 : ((charToDigit e) * 10 + charToDigit f) % 10 = charToDigit f := by
          unfold charToDigit
          omega
        have d1 : ((charToDigit g) * 10 + charToDigit h) / 10 % 10 = charToDigit g := by
          unfold charToDigit
          omega
        have d2 : ((charToDigit g) * 10 + charToDigit h) % 10 = charToDigit h := by
          unfold charToDigit
          omega
        unfold strftimeYMDCore
        rw [yearChars_ge1000 _ hy1000]
        unfold pad4 pad2
        rw [e1, e2, e3, e4, m1, m2, d1, d2]
        rw [digit_eq_digitChar a ha, digit_eq_digitChar b hb, digit_eq_digitChar c hc,
          digit_eq_digitChar d hd0, digit_eq_digitChar e he, digit_eq_digitChar f hf,
          digit_eq_digitChar g hg, digit_eq_digitChar h hh]
        rfl
      rw [hlist]
    · have hnone : strptimeYMDCore (String.mk [a, b, c, d, '-', e, f, '-', g, h]).data
          = none := by
        show strptimeYMDCore [a, b, c, d, '-', e, f, '-', g, h] = _
        rw [hex]
        unfold mkDate
        rw [if_neg hv]
      have h1 : format_date (String.mk [a, b, c, d, '-', e, f, '-', g, h])
          = String.mk [a, b, c, d, '-', e, f, '-', g, h] := by
        unfold format_date
        rw [hnone]
      rw [h1]
      unfold parse_display_date
      rw [show (String.mk [a, b, c, d, '-', e, f, '-', g, h]).data
        = [a, b, c, d, '-', e, f, '-', g, h] from rfl]
      rw [strptimeDisplay_digit_start a ha]
  · intro s h
    unfold format_date
    rw [h]
  · intro s h
    unfold parse_display_date
    rw [h]

/-- C10: refuted as stated.  `0005-01-01` is a date string in the exact
`YYYY-MM-DD` format and `strptime` accepts it, but glibc `strftime` prints
`%Y` unpadded, so `format_date` renders `January 01, 5`; parsing that back
fails the four-digit `%Y` group of `%B %d, %Y`, `parse_display_date`
returns its input unchanged, and the round trip yields `January 01, 5`
instead of `0005-01-01`. -/
theorem c10_counterexample :
    format_date "0005-01-01" = "January 01, 5"
    ∧ parse_display_date (format_date "0005-01-01") = "January 01, 5"
    ∧ ("January 01, 5" : String) ≠ "0005-01-01" := by
  decide

/-- C10 witness: `2024-03-05` formats to `March 05, 2024` and parses back to
`2024-03-05`; the non-matching input `nope` passes through both functions
unchanged. -/
theorem c10_display_date_roundtrip_witness :
    parse_display_date (format_date (String.mk ['2', '0', '2', '4', '-', '0', '3', '-', '0', '5']))
      = String.mk ['2', '0', '2', '4', '-', '0', '3', '-', '0', '5']
    ∧ format_date "nope" = "nope"
    ∧ parse_display_date "nope" = "nope" := by
  refine ⟨?_, ?_, ?_⟩
  · exact c10_display_date_roundtrip.1 '2' '0' '2' '4' '0' '3' '0' '5' (by decide) (by decide)
      (by decide) (by decide) (by decide) (by decide) (by decide) (by decide) (by decide)
  · exact c10_display_date_roundtrip.2.1 "nope" (by decide)
  · exact c10_display_date_roundtrip.2.2 "nope" (by decide)

/-- C1: refuted as stated.  Reconciling a post whose output filename is
absent can leave the blog section unsorted: a post dated 2024-01-01 added
to a section whose only entry is dated June 01, 2024 is inserted directly
after the `h2` heading, before the June entry, so the entry sequence ends
up ascending.  (The claim's other half does hold: exactly one entry is
inserted.)  This contradicts the code's own comment that new posts are
added "in chronological order (newest first)". -/
theorem c1_oldest_post_breaks_descending_order :
    reconcileSection
        [Node.heading "Blog",
         Node.article { href := some "blog/june.html", title := "June post",
                        time := some "June 01, 2024", desc := none }]
        { title := "Jan post", date := "2024-01-01", description := "", content := "",
          filename := "jan.md" }
      = ([Node.heading "Blog",
          Node.article { href := some "blog/jan.html", title := "Jan post",
                         time := some "January 01, 2024", desc := none },
          Node.article { href := some "blog/june.html", title := "June post",
                         time := some "June 01, 2024", desc := none }],
         Outcome.inserted)
    ∧ sortedDescB (sectionDates
        [Node.article { href := some "blog/june.html", title := "June post",
                        time := some "June 01, 2024", desc := none }]) = true
    ∧ sortedDescB (sectionDates
        [Node.heading "Blog",
         Node.article { href := some "blog/jan.html", title := "Jan post",
                        time := some "January 01, 2024", desc := none },
         Node.article { href := some "blog/june.html", title := "June post",
                        time := some "June 01, 2024", desc := none }]) = false := by
  decide

/-- C3: refuted as stated.  In the match case the blog section that is
serialized is unchanged: `replace_with` mutates an article belonging to the
second soup built inside `get_existing_blog_posts_from_html`, while the
first soup is the one written back, so the persisted index still holds the
old entry and the new article is nowhere in it, even though the code
reports "Updated existing blog post". -/
theorem c3_matched_update_is_lost :
    reconcileSection
        [Node.heading "Blog",
         Node.article { href := some "blog/a.html", title := "Old title",
                        time := some "January 01, 2024", desc := none }]
        { title := "New title", date := "2024-02-02", description := "new desc",
          content := "", filename := "a.md" }
      = ([Node.heading "Blog",
          Node.article { href := some "blog/a.html", title := "Old title",
                         time := some "January 01, 2024", desc := none }],
         Outcome.updated)
    ∧ Node.article (newArticle
        { title := "New title", date := "2024-02-02", description := "new desc",
          content := "", filename := "a.md" })
        ∉ (reconcileSection
            [Node.heading "Blog",
             Node.article { href := some "blog/a.html", title := "Old title",
                            time := some "January 01, 2024", desc := none }]
            { title := "New title", date := "2024-02-02", description := "new desc",
              content := "", filename := "a.md" }).1 := by
  decide

/-- C6: an unparseable stored display date never aborts the no-match
insertion: (i) the single comparison against such an entry is false
("not earlier"), (ii) a false comparison makes the scan continue with the
remaining entries, and (iii) whenever no entry matches the post's output
filename the new entry is still inserted at some position, all other nodes
keeping their relative order. -/
theorem c6_unparseable_stored_date_never_aborts :
    (∀ (nd : Nat × Nat × Nat) (s : String),
        strptimeYMDCore (parse_display_date s).data = none → cmpNewer nd s = false)
    ∧ (∀ (nd : Nat × Nat × Nat) (n : Node) (rest : List Node),
        entryEarlierThan nd n = false →
        insertScanIdx (n :: rest) nd = (insertScanIdx rest nd).map (· + 1))
    ∧ (∀ (sec : List Node) (post : BlogPost),
        lastMatchIdx sec (html_filename post) = none →
        ∃ i, i ≤ sec.length ∧
          (reconcileSection sec post).1 = insertAt sec i (Node.article (newArticle post))) := by
  refine ⟨?_, ?_, ?_⟩
  · intro nd s h
    simp [cmpNewer, h]
  · intro nd n rest h
    simp [insertScanIdx, firstIdx, h]
  · intro sec post h
    exact reconcile_no_match_inserts sec post h

/-- C6 witness: against a section whose single entry displays the
unparseable date `garbage`, the comparison is false, the scan skips to the
remaining (empty) list, and a fresh post is still inserted. -/
theorem c6_unparseable_stored_date_never_aborts_witness :
    cmpNewer (2024, 5, 5) "garbage" = false
    ∧ insertScanIdx
          [Node.article { href := some "blog/x.html", title := "X",
                          time := some "garbage", desc := none }] (2024, 5, 5)
        = (insertScanIdx [] (2024, 5, 5)).map (· + 1)
    ∧ ∃ i, i ≤ ([Node.article { href := some "blog/x.html", title := "X",
                                time := some "garbage", desc := none }] : List Node).length ∧
        (reconcileSection
            [Node.article { href := some "blog/x.html", title := "X",
                            time := some "garbage", desc := none }]
            { title := "P", date := "2024-05-05", description := "", content := "",
              filename := "p.md" }).1
          = insertAt
              [Node.article { href := some "blog/x.html", title := "X",
                              time := some "garbage", desc := none }] i
              (Node.article (newArticle
                { title := "P", date := "2024-05-05", description := "", content := "",
                  filename := "p.md" })) := by
  refine ⟨?_, ?_, ?_⟩
  · exact c6_unparseable_stored_date_never_aborts.1 (2024, 5, 5) "garbage" (by decide)
  · exact c6_unparseable_stored_date_never_aborts.2.1 (2024, 5, 5) _ [] (by decide)
  · exact c6_unparseable_stored_date_never_aborts.2.2 _ _ (by decide)

/-- C7: reconciling a post with a parseable date into a section without
entries inserts the new entry directly after the first `h2` heading when
one is present (position `j + 1`; when the heading is the last node this
coincides with appending at the end), and appends it at the end of the
section when no heading exists. -/
theorem c7_zero_entries_insert_after_heading (sec : List Node) (post : BlogPost)
    (nd : Nat × Nat × Nat)
    (hart : ∀ n ∈ sec, isArticle n = false)
    (hdate : strptimeYMDCore post.date.data = some nd) :
    (∀ j, firstIdx isHeading sec = some j →
        (reconcileSection sec post).1 = insertAt sec (j + 1) (Node.article (newArticle post)))
    ∧ (firstIdx isHeading sec = none →
        (reconcileSection sec post).1 = sec ++ [Node.article (newArticle post)]) := by
  have hm : lastMatchIdx sec (html_filename post) = none :=
    lastMatchIdx_eq_none sec _ (fun n hn => isMatch_of_not_article _ n (hart n hn))
  have hscan : insertScanIdx sec nd = none :=
    firstIdx_eq_none _ sec (fun n hn => entryEarlierThan_of_not_article nd n (hart n hn))
  constructor
  · intro j hj
    have hjlt := firstIdx_lt_length _ _ _ hj
    by_cases hlt : j + 1 < sec.length
    · simp [reconcileSection, hm, hdate, hscan, hj, hlt]
    · have hj1 : j + 1 = sec.length := by omega
      simp [reconcileSection, hm, hdate, hscan, hj, hlt, hj1,
        insertAt_length_eq_append]
  · intro hh
    simp [reconcileSection, hm, hdate, hscan, hh]

/-- C7 witness: a section holding a heading followed by a whitespace node
receives the entry of a post dated 2024-03-01 directly after the heading. -/
theorem c7_zero_entries_insert_after_heading_witness :
    (reconcileSection [Node.heading "Blog", Node.other "ws"]
        { title := "Mar", date := "2024-03-01", description := "", content := "",
          filename := "mar.md" }).1
      = insertAt [Node.heading "Blog", Node.other "ws"] 1
          (Node.article (newArticle
            { title := "Mar", date := "2024-03-01", description := "", content := "",
              filename := "mar.md" })) := by
  exact (c7_zero_entries_insert_after_heading [Node.heading "Blog", Node.other "ws"]
    { title := "Mar", date := "2024-03-01", description := "", content := "",
      filename := "mar.md" } (2024, 3, 1) (by decide) (by decide)).1 0 (by decide)

/-- C8: given the index document exists, the integrity check passes exactly
when every markdown stem has both a rendered HTML file and an index entry;
orphaned HTML files and orphaned index entries are only printed and cannot
make the result false. -/
theorem c8_verify_iff (mdStems htmlStems indexStems : List String) :
    verify_blog_integrity true mdStems htmlStems indexStems = true
      ↔ ∀ s ∈ mdStems, htmlStems.contains s = true ∧ indexStems.contains s = true := by
  unfold verify_blog_integrity
  rw [if_neg (by simp)]
  simp only [verify_foldl]
  simp only [Bool.true_and, Bool.and_eq_true, List.all_eq_true]
  constructor
  · rintro ⟨h1, h2⟩ s hs
    exact ⟨h1 s hs, h2 s hs⟩
  · intro h
    exact ⟨fun s hs => (h s hs).1, fun s hs => (h s hs).2⟩

/-- C8 witness: with stems `a` present in all three sets and an orphaned
HTML stem `z`, the check passes. -/
theorem c8_verify_iff_witness :
    verify_blog_integrity true ["a"] ["a", "z"] ["a"] = true := by
  exact (c8_verify_iff ["a"] ["a", "z"] ["a"]).mpr (by decide)

/-- C2: refuted as stated.  `filename.replace('.md', '.html')` replaces
every occurrence of `.md`, not only the trailing extension: the source
filename `a.md.md` yields output filename `a.html.html` instead of
`a.md.html`, and the stem recovered from the recorded link target is
`a.html`, not the source stem `a.md`. -/
theorem c2_counterexample :
    html_filename
        { title := "t", date := "2024-01-01", description := "", content := "",
          filename := "a.md.md" } = "a.html.html"
    ∧ ("a.html.html" : String) ≠ "a.md.html"
    ∧ String.mk (pathStem (pathName (postUrl
        { title := "t", date := "2024-01-01", description := "", content := "",
          filename := "a.md.md" }).data)) = "a.html"
    ∧ String.mk (pathStem ("a.md.md" : String).data) = "a.md"
    ∧ ("a.html" : String) ≠ "a.md" := by
  decide

/-- C2 amended: for source filenames in which `.md` occurs only as the
trailing extension (the stem is non-empty, contains no path separator and
no occurrence of `.md`), the output filename is the stem with an `.html`
extension, and the stem re-derived from the link target recorded in the
index entry (`Path(url).stem`, as `verify_blog_integrity` derives it)
recovers the stem of the original source file. -/
theorem c2_extension_replacement_roundtrip (p : BlogPost) (stem : List Char)
    (hfile : p.filename.data = stem ++ ['.', 'm', 'd'])
    (hne : stem ≠ [])
    (hslash : ∀ c ∈ stem, c ≠ '/')
    (hinf : ¬ (['.', 'm', 'd'] <:+: stem)) :
    (html_filename p).data = stem ++ ['.', 'h', 't', 'm', 'l']
    ∧ pathStem (pathName (postUrl p).data) = stem
    ∧ pathStem p.filename.data = stem := by
  have hext : ∀ c ∈ ['h', 't', 'm', 'l'], c ≠ '.' := by
    intro c hc
    simp only [List.mem_cons, List.not_mem_nil, or_false] at hc
    rcases hc with rfl | rfl | rfl | rfl <;> decide
  have h1 : (html_filename p).data = stem ++ ['.', 'h', 't', 'm', 'l'] := by
    show (md_to_html p.filename.data) = _
    rw [hfile]
    exact md_to_html_append_md stem hinf
  refine ⟨h1, ?_, ?_⟩
  · have hurl : (postUrl p).data = ['b', 'l', 'o', 'g'] ++ '/' :: (stem ++ ['.', 'h', 't', 'm', 'l']) := by
      show (("blog/" : String) ++ html_filename p).data = _
      rw [String.data_append, h1]
      rfl
    rw [hurl, pathName_append_slash _ _ (by
      intro c hc
      rcases List.mem_append.mp hc with hc | hc
      · exact hslash c hc
      · simp only [List.mem_cons, List.not_mem_nil, or_false] at hc
        rcases hc with rfl | rfl | rfl | rfl | rfl <;> decide)]
    exact pathStem_append_dot stem ['h', 't', 'm', 'l'] hne (by simp) hext
  · rw [hfile]
    exact pathStem_append_dot stem ['m', 'd'] hne (by simp) (by
      intro c hc
      simp only [List.mem_cons, List.not_mem_nil, or_false] at hc
      rcases hc with rfl | rfl <;> decide)

/-- C2 amended witness: the source file `hello.md` round-trips: output
filename `hello.html`, and both the recorded link target and the source
filename re-derive the stem `hello`. -/
theorem c2_extension_replacement_roundtrip_witness :
    (html_filename
        { title := "t", date := "2024-01-01", description := "", content := "",
          filename := "hello.md" }).data
      = ['h', 'e', 'l', 'l', 'o'] ++ ['.', 'h', 't', 'm', 'l']
    ∧ pathStem (pathName (postUrl
        { title := "t", date := "2024-01-01", description := "", content := "",
          filename := "hello.md" }).data) = ['h', 'e', 'l', 'l', 'o']
    ∧ pathStem ("hello.md" : String).data = ['h', 'e', 'l', 'l', 'o'] := by
  exact c2_extension_replacement_roundtrip
    { title := "t", date := "2024-01-01", description := "", content := "",
      filename := "hello.md" }
    ['h', 'e', 'l', 'l', 'o'] (by decide) (by decide) (by decide) (by decide)

/-- C9 witness: a post dated `notadate` reconciled into a section holding a
heading and a June 2024 entry lands after the June entry, at the end. -/
theorem c9_unparseable_post_date_appends_witness :
    add_or_update_blog_post
        (some { rest := "R",
                blogSection := some [Node.heading "Blog",
                  Node.article { href := some "blog/june.html", title := "June post",
                                 time := some "June 01, 2024", desc := none }] })
        { title := "Bad", date := "notadate", description := "", content := "",
          filename := "bad.md" }
      = (some { rest := "R",
                blogSection := some
                  [Node.heading "Blog",
                   Node.article { href := some "blog/june.html", title := "June post",
                                  time := some "June 01, 2024", desc := none },
                   Node.article { href := some "blog/bad.html", title := "Bad",
                                  time := some "notadate", desc := none }] },
         Outcome.insertedAtEnd) := by
  exact c9_unparseable_post_date_appends "R" _ _ (by decide) (by decide)

end BlogGen
